import Mathlib

/-!
Shallow embedding of the audio-streaming core of the Kodi Spotify-connect
addon, together with proofs settling the frozen claims about its
specification.

The embedding follows the Python sources:
  resources/lib/spotty_audio_streamer.py       (WAV header, stream generator)
  resources/lib/http_spotty_audio_streamer.py  (Range parsing, response body)
  resources/lib/prebuffer.py                   (single-slot pre-buffer cache)
  resources/lib/connect/librespot.py           (receiver retry supervisor)
  resources/lib/connect/onevent_client.py      (UDP event channel)
  resources/lib/connect/player.py              (event dispatcher)

Machine integers of the source are modelled as Nat/Int; byte strings as
lists of byte values (Nat); Python exceptions as Option/None or explicit
result constructors.  While-loops are embedded with an explicit fuel
argument that is instantiated with a provable upper bound on the number of
iterations of the source loop, so every definition stays executable.
-/

set_option autoImplicit false

namespace SpotifyKodiConnect

/-! ## WAV header synthesis (spotty_audio_streamer.py, set_track / __create_wav_header)

`set_track` stores `int(track_duration)` (truncation toward zero) and builds
the header once via `__create_wav_header`.  `struct.pack "<...L...>"` fields
are serialized little-endian; the byte-level packing is modelled by `le16`
and `le32`.  (For durations so large that a `L` field would exceed 2^32 the
source raises `struct.error`; theorems about the header therefore carry the
corresponding bound.)  -/

/-- Truncation toward zero, the semantics of Python `int()` on a number. -/
def pyint_of_rat (q : ℚ) : ℤ :=
  if 0 ≤ q then ⌊q⌋ else -⌊-q⌋

/-- Little-endian packing of a 16-bit field (struct format "H"). -/
def le16 (n : ℕ) : List ℕ :=
  [n % 256, n / 256 % 256]

/-- Little-endian packing of a 32-bit field (struct format "L"). -/
def le32 (n : ℕ) : List ℕ :=
  [n % 256, n / 256 % 256, n / 65536 % 256, n / 16777216 % 256]

/-- ASCII bytes of a literal string (struct format "4s"). -/
def ascii (s : String) : List ℕ :=
  s.data.map Char.toNat

/-- `SpottyAudioStreamer.__create_wav_header`, for the stored integer track
duration.  Returns the header bytes and the total track length
(`all_chunks_size + 8`).  The constants 24 and 8 are
`struct.calcsize("<4sLHHLLHH")` and `struct.calcsize("<4sL")`. -/
def create_wav_header (track_duration : ℕ) : List ℕ × ℕ :=
  let num_samples := 44100 * track_duration
  let channels := 2
  let sample_rate := 44100
  let bits_per_sample := 16
  let format_chunk : List ℕ :=
    ascii "fmt " ++ le32 16 ++ le16 1 ++ le16 channels ++ le32 sample_rate
      ++ le32 (sample_rate * channels * (bits_per_sample / 8))
      ++ le16 (channels * (bits_per_sample / 8)) ++ le16 bits_per_sample
  let data_size := num_samples * channels * (bits_per_sample / 8)
  let data_chunk : List ℕ := ascii "data" ++ le32 data_size
  let format_chunk_calcsize := 24
  let data_chunk_calcsize := 8
  let all_chunks_size := 4 + format_chunk_calcsize + (data_chunk_calcsize + data_size)
  let main_header : List ℕ := ascii "RIFF" ++ le32 all_chunks_size ++ ascii "WAVE"
  (main_header ++ format_chunk ++ data_chunk, all_chunks_size + 8)

/-- `SpottyAudioStreamer.set_track`: the track length stored for a session,
as a function of the caller-supplied duration (`int()` is applied first). -/
def set_track_length (track_duration : ℚ) : ℕ :=
  (create_wav_header (pyint_of_rat track_duration).toNat).2

/-- `SpottyAudioStreamer.set_track`: the WAV header stored for a session. -/
def set_track_header (track_duration : ℚ) : List ℕ :=
  (create_wav_header (pyint_of_rat track_duration).toNat).1

/-! ## Pre-buffer cache (prebuffer.py) -/

/-- The lock-protected slot state of `PrebufferManager`: the stored buffer
bytes and the track id they belong to. -/
structure PrebufferState where
  buffer : Option (List ℕ)
  prebuffer_track_id : Option String
  deriving DecidableEq, Repr

/-- `PrebufferManager.get_and_clear_prebuffer`: returns
`((buffer_bytes, True), cleared-state)` on an exact id match with a stored
buffer, otherwise `((None, False), unchanged-state)`. -/
def get_and_clear_prebuffer (s : PrebufferState) (track_id : String) :
    (Option (List ℕ) × Bool) × PrebufferState :=
  if s.prebuffer_track_id ≠ some track_id ∨ s.buffer = none then
    ((none, false), s)
  else
    ((s.buffer, true), { buffer := none, prebuffer_track_id := none })

/-! ## HTTP response body composition (http_spotty_audio_streamer.py, generate) -/

/-- One piece of the response body produced by `generate()`:
either a slice `prebuf_data[lo:hi]` of the pre-buffer, or a call
`send_part_audio_stream(len, start)` into the live decoder. -/
inductive BodyPart where
  | prebuf_slice (lo hi : ℕ)
  | decoder_stream (len start : ℕ)
  deriving DecidableEq, Repr

/-- The `generate()` closure of `spotty_stream_audio_track`, lines 171-195:
which body parts are emitted for the computed range `[r_begin, r_end)` when
the pre-buffer returned `(prebuf_data, has_prebuf_data)` with
`len(prebuf_data) = prebuffer_len`.  (`has_prebuf_data and prebuf_data`
is Python truthiness: an empty buffer falls through to the live decoder.) -/
def http_generate (has_prebuf_data : Bool) (prebuffer_len r_begin r_end : ℕ) :
    List BodyPart :=
  if has_prebuf_data = true ∧ 0 < prebuffer_len then
    (if r_begin < prebuffer_len then
      [BodyPart.prebuf_slice r_begin (min r_end prebuffer_len)]
    else []) ++
    (if prebuffer_len < r_end then
      [BodyPart.decoder_stream (r_end - max r_begin prebuffer_len) (max r_begin prebuffer_len)]
    else [])
  else
    [BodyPart.decoder_stream (r_end - r_begin) r_begin]

/-! ## Receiver supervisor (connect/librespot.py) -/

/-- How the supervisor loop `Librespot._run` came to rest in a scenario. -/
inductive RunEnd where
  | broke_out      -- the retry ceiling was hit and the loop executed break
  | no_more_exits  -- the scenario supplied no further process exits
  deriving DecidableEq, Repr

/-- Lines 173-178 of `Librespot._run`: how the retry counter evolves on a
process exit with the given return code. -/
def retries_after_exit (retries : ℕ) (returncode : ℤ) : ℕ :=
  if returncode ≤ 0 then 0 else retries + 1

/-- The `while not self._is_stopped.is_set()` loop of `Librespot._run`,
driven by the list of return codes of the successive subprocess exits
(`stop()` is never called in the modelled scenarios, so the stop event stays
clear).  Each iteration spawns the subprocess once; an empty list means the
current process never exits and the loop blocks.  Returns
(total spawns, final retry counter, how the loop ended). -/
def librespot_run_loop (max_retries : ℕ) :
    List ℤ → ℕ → ℕ → ℕ × ℕ × RunEnd
  | [], retries, spawns => (spawns, retries, RunEnd.no_more_exits)
  | ret :: rest, retries, spawns =>
    let spawns := spawns + 1
    let retries := retries_after_exit retries ret
    if ret ≤ 0 then librespot_run_loop max_retries rest retries spawns
    else if retries < max_retries then librespot_run_loop max_retries rest retries spawns
    else (spawns, retries, RunEnd.broke_out)

/-- `Librespot._run` started from a fresh supervisor (`_retries = 0`). -/
def librespot_run (max_retries : ℕ) (exit_codes : List ℤ) : ℕ × ℕ × RunEnd :=
  librespot_run_loop max_retries exit_codes 0 0

/-- `Librespot.start`, line 134: whether a `start()` call spawns the run
thread, given the thread liveness and the current retry counter. -/
def librespot_start_spawns (thread_alive : Bool) (retries max_retries : ℕ) : Bool :=
  !thread_alive && decide (retries < max_retries)

/-! ## Event channel (connect/onevent_client.py and connect/player.py) -/

/-- Decoded JSON values, as produced by `json.loads` on a datagram. -/
inductive Json where
  | null
  | bool (b : Bool)
  | num (n : ℤ)
  | str (s : String)
  | arr (elems : List Json)
  | obj (fields : List (String × Json))

/-- Python truthiness of a decoded JSON value (`if not event: break`). -/
def Json.is_falsy : Json → Bool
  | .null => true
  | .bool b => !b
  | .num n => n == 0
  | .str s => s == ""
  | .arr l => l.isEmpty
  | .obj l => l.isEmpty

/-- How the `receive_event` generator came to rest. -/
inductive RecvEnd where
  | sentinel      -- a falsy decoded payload: the loop executed break
  | decode_error  -- json.loads raised; the generator aborted with an error
  | blocked       -- no further datagrams: recvfrom blocks forever
  deriving DecidableEq, Repr

/-- `onevent_client.receive_event` over a sequence of datagrams, each of
which either decodes to a JSON value or fails to decode (`none`).  Returns
the events yielded to the consumer and how the loop ended.  Note the source
has no try/except around `json.loads`. -/
def receive_event : List (Option Json) → List Json × RecvEnd
  | [] => ([], RecvEnd.blocked)
  | none :: _ => ([], RecvEnd.decode_error)
  | some e :: rest =>
    if e.is_falsy then ([], RecvEnd.sentinel)
    else
      let r := receive_event rest
      (e :: r.1, r.2)

/-- Python `dict.pop(key, None)`: the popped value and the remaining
entries. -/
def pop_field : List (String × Json) → String → Option Json × List (String × Json)
  | [], _ => (none, [])
  | (k, v) :: rest, key =>
    if k = key then (some v, rest)
    else
      let r := pop_field rest key
      (r.1, (k, v) :: r.2)

/-- What `Player._run` does with one yielded event. -/
inductive DispatchAction where
  | on_stopped
  | on_track_changed
  | skipped
  | dispatch_error  -- the inner try caught an exception; the loop continues
  deriving DecidableEq, Repr

/-- The keyword parameters accepted by `Player.onLibrespotTrackChanged`. -/
def track_changed_kwargs : List String := ["album", "art", "artist", "title"]

/-- The dispatch step of `Player._run`, lines 70-77: pop PLAYER_EVENT and
dispatch.  A non-dict event or unexpected keyword arguments raise inside the
inner try, which is caught and logged (the loop continues). -/
def dispatch_event : Json → DispatchAction
  | .obj fields =>
    let p := pop_field fields "PLAYER_EVENT"
    match p.1 with
    | some (.str s) =>
      if s = "stopped" then DispatchAction.on_stopped
      else if s = "track_changed" then
        if p.2.all (fun kv => kv.1 ∈ track_changed_kwargs) then
          DispatchAction.on_track_changed
        else DispatchAction.dispatch_error
      else DispatchAction.skipped
    | some _ => DispatchAction.skipped
    | none => DispatchAction.skipped
  | _ => DispatchAction.dispatch_error

/-- `Player._run`: every yielded event goes through the dispatch step; the
loop ends the way `receive_event` ends. -/
def player_run (datagrams : List (Option Json)) : List DispatchAction × RecvEnd :=
  let r := receive_event datagrams
  (r.1.map dispatch_event, r.2)

/-! ## Stream generator (spotty_audio_streamer.py, send_part_audio_stream)

The generator is modelled at the byte-count level.  The decoder's stdout is
a pipe that, once the process is spawned with `--start-position start_sec`,
can deliver `pipe` further PCM bytes; `read(n)` on it returns
`min n remaining` bytes (the claims assume the pipe supplies enough data,
which this captures; a starved pipe is modelled by a small `pipe`).
Concurrent `terminate_stream` calls are modelled by the list `flags` of
successive observations of the `__terminated` flag (one per check in the
source; an exhausted list reads as `False`).  An exception raised by a
`read` call is injected through `err_at` (the index of the failing read),
and a `run_spotty` failure through `spawn_ok`. -/

/-- 44100 Hz * 2 channels * 2 bytes, line 135 of spotty_audio_streamer.py. -/
def pcm_bytes_per_sec : ℕ := 176400

/-- Lines 138-143: the whole-second start position handed to spotty. -/
def start_sec_of (range_begin header_len : ℕ) : ℕ :=
  if 0 < range_begin - header_len then (range_begin - header_len) / pcm_bytes_per_sec else 0

/-- Lines 138-143: the sub-second PCM bytes to read-and-discard. -/
def pcm_skip_of (range_begin header_len : ℕ) : ℕ :=
  if 0 < range_begin - header_len then (range_begin - header_len) % pcm_bytes_per_sec else 0

/-- State threaded through the generator: remaining pipe bytes, upcoming
`__terminated` observations, the injected read failure, reads done so far. -/
structure PipeState where
  rem : ℕ
  flags : List Bool
  err_at : Option ℕ
  reads : ℕ
  deriving DecidableEq, Repr

/-- Observe the `__terminated` flag once. -/
def popFlag : List Bool → Bool × List Bool
  | [] => (false, [])
  | b :: r => (b, r)

/-- `proc_stdout.read(req)`: `none` when this read raises, otherwise the
bytes obtained and the successor state. -/
def pipeRead (st : PipeState) (req : ℕ) : Option (ℕ × PipeState) :=
  if st.err_at = some st.reads then none
  else some (min req st.rem,
    { st with rem := st.rem - min req st.rem, reads := st.reads + 1 })

/-- How a loop of the generator ended. -/
inductive LoopRes where
  | ok    -- fell through (condition false, or break)
  | term  -- the __terminated flag was observed set: return
  | err   -- a read raised
  deriving DecidableEq, Repr

/-- Lines 180-190: the skip loop discarding sub-second PCM.  `need` is
`pcm_skip - discarded`; each iteration discards at least one byte or
breaks, so `fuel := pcm_skip` bounds the iteration count.  Returns the
total discarded bytes, the pipe state, and how the loop ended. -/
def skip_loop (c_size : ℕ) : ℕ → ℕ → ℕ → PipeState → ℕ × PipeState × LoopRes
  | _, 0, discarded, st => (discarded, st, LoopRes.ok)
  | 0, _ + 1, discarded, st => (discarded, st, LoopRes.ok)  -- unreachable for fuel ≥ need
  | fuel + 1, need + 1, discarded, st =>
    let c := popFlag st.flags
    let st1 := { st with flags := c.2 }
    if c.1 then (discarded, st1, LoopRes.term)
    else
      let to_read := min c_size (need + 1)
      match pipeRead st1 to_read with
      | none => (discarded, st1, LoopRes.err)
      | some chunk =>
        if chunk.1 = 0 then (discarded, chunk.2, LoopRes.ok)  -- if not chunk: break
        else skip_loop c_size fuel (need + 1 - chunk.1) (discarded + chunk.1) chunk.2

/-- Lines 193-209: the send loop.  `frame` is the most recent read (the
source pre-fetches before the loop); `bytes_sent`/`emitted` mirror the
source's counter and the bytes actually yielded by the loop.  Every
iteration that recurses consumed at least one pipe byte for the next
frame, so `fuel := st.rem + 1` at the call site bounds the depth. -/
def send_loop (c_size range_len : ℕ) :
    ℕ → ℕ → ℕ → ℕ → PipeState → ℕ × ℕ × PipeState × LoopRes
  | 0, bytes_sent, emitted, _, st =>
    (bytes_sent, emitted, st, LoopRes.ok)  -- unreachable for fuel ≥ st.rem + 1
  | fuel + 1, bytes_sent, emitted, frame, st =>
    if frame = 0 ∨ range_len ≤ bytes_sent then (bytes_sent, emitted, st, LoopRes.ok)
    else
      let c := popFlag st.flags
      let st1 := { st with flags := c.2 }
      if c.1 then (bytes_sent, emitted, st1, LoopRes.term)
      else
        let b := bytes_sent + frame
        let e := emitted + frame
        match pipeRead st1 c_size with
        | none => (b, e, st1, LoopRes.err)
        | some nx => send_loop c_size range_len fuel b e nx.1 nx.2

/-- The inputs of one `send_part_audio_stream` invocation. -/
structure StreamArgs where
  header_len : ℕ   -- len(self.__wav_header)
  chunk_size : ℕ   -- self.chunk_size
  range_len : ℕ
  range_begin : ℕ
  pipe : ℕ         -- PCM bytes the spawned decoder will deliver
  flags : List Bool
  err_at : Option ℕ
  spawn_ok : Bool
  deriving Repr

/-- Which exit path one generator run took. -/
inductive EndKind where
  | natural     -- the while loop fell through; notify_track_finished ran
  | terminated  -- a __terminated check returned early
  | errored     -- an exception reached the except branch
  deriving DecidableEq, Repr

/-- The observable outcome of one generator run. -/
structure StreamRun where
  yielded : ℕ          -- total bytes yielded (header bytes + PCM)
  discarded : ℕ        -- PCM bytes read and thrown away by the skip loop
  start_sec : ℕ        -- the --start-position value (0 means flag omitted)
  spawned : Bool
  notified : ℕ         -- number of notify_track_finished calls
  first_pcm : Option ℕ -- file offset of the first PCM byte yielded, if any
  end_kind : EndKind
  deriving DecidableEq, Repr

/-- `SpottyAudioStreamer.send_part_audio_stream` (lines 109-224).
Process bookkeeping (`__kill_last_spotty`, the finally-block cleanup) has no
bearing on the byte stream and is not modelled.  The header cases of lines
145-154 yield `y0` bytes and leave `bytes_sent = y0`. -/
def send_part_audio_stream (a : StreamArgs) : StreamRun :=
  let header_len := a.header_len
  let start_sec := start_sec_of a.range_begin header_len
  let pcm_skip := pcm_skip_of a.range_begin header_len
  let y0 :=
    if a.range_begin = 0 then header_len
    else if a.range_begin < header_len then min (header_len - a.range_begin) a.range_len
    else 0
  let st0 : PipeState := { rem := a.pipe, flags := a.flags, err_at := a.err_at, reads := 0 }
  let c := popFlag st0.flags
  let st1 := { st0 with flags := c.2 }
  if c.1 then  -- line 168: if self.__terminated: return
    { yielded := y0, discarded := 0, start_sec := start_sec, spawned := false,
      notified := 0, first_pcm := none, end_kind := EndKind.terminated }
  else if a.spawn_ok = false then  -- run_spotty raised: except branch
    { yielded := y0, discarded := 0, start_sec := start_sec, spawned := false,
      notified := 0, first_pcm := none, end_kind := EndKind.errored }
  else
    let sres := skip_loop a.chunk_size pcm_skip pcm_skip 0 st1
    match sres.2.2 with
    | LoopRes.term =>
      { yielded := y0, discarded := sres.1, start_sec := start_sec, spawned := true,
        notified := 0, first_pcm := none, end_kind := EndKind.terminated }
    | LoopRes.err =>
      { yielded := y0, discarded := sres.1, start_sec := start_sec, spawned := true,
        notified := 0, first_pcm := none, end_kind := EndKind.errored }
    | LoopRes.ok =>
      match pipeRead sres.2.1 a.chunk_size with  -- line 193: pre-fetch
      | none =>
        { yielded := y0, discarded := sres.1, start_sec := start_sec, spawned := true,
          notified := 0, first_pcm := none, end_kind := EndKind.errored }
      | some pr =>
        let lres := send_loop a.chunk_size a.range_len (pr.2.rem + 1) y0 0 pr.1 pr.2
        let em := lres.2.1
        let fp := if 0 < em then
            some (header_len + start_sec * pcm_bytes_per_sec + sres.1)
          else none
        match lres.2.2.2 with
        | LoopRes.term =>
          { yielded := y0 + em, discarded := sres.1, start_sec := start_sec, spawned := true,
            notified := 0, first_pcm := fp, end_kind := EndKind.terminated }
        | LoopRes.err =>
          { yielded := y0 + em, discarded := sres.1, start_sec := start_sec, spawned := true,
            notified := 0, first_pcm := fp, end_kind := EndKind.errored }
        | LoopRes.ok =>
          { yielded := y0 + em, discarded := sres.1, start_sec := start_sec, spawned := true,
            notified := 1, first_pcm := fp, end_kind := EndKind.natural }

/-- Total `notify_track_finished` calls over the generator runs of one
track session (one `set_track`, several range requests). -/
def session_notified (calls : List StreamArgs) : ℕ :=
  (calls.map (fun a => (send_part_audio_stream a).notified)).sum

/-! ## HTTP Range header handling (http_spotty_audio_streamer.py, lines 132-204)

The Python string operations used by the parser are embedded over
`List Char`.  (`int()` literals with digit-group underscores are not
modelled; no claim involves them.) -/

/-- The whitespace stripped by Python `str.strip()`. -/
def py_space (c : Char) : Bool :=
  c = ' ' || c = '\t' || c = '\n' || c = '\r' || c = '\x0B' || c = '\x0C'

/-- Python `str.strip()`. -/
def py_strip (s : List Char) : List Char :=
  ((s.dropWhile py_space).reverse.dropWhile py_space).reverse

/-- If `sep` is a leading run of `s`, the remainder of `s`. -/
def drop_exact : List Char → List Char → Option (List Char)
  | [], s => some s
  | _ :: _, [] => none
  | p :: ps, c :: cs => if p = c then drop_exact ps cs else none

/-- The text before and after the first occurrence of `sep` in `s`. -/
def find_sep (sep : List Char) : List Char → Option (List Char × List Char)
  | [] => (drop_exact sep []).map (fun t => (([] : List Char), t))
  | c :: rest =>
    match drop_exact sep (c :: rest) with
    | some tail => some ([], tail)
    | none => (find_sep sep rest).map (fun p => (c :: p.1, p.2))

/-- Python `s.split(sep, 1)` for a non-empty separator. -/
def py_split1 (s sep : List Char) : List (List Char) :=
  match find_sep sep s with
  | some p => [p.1, p.2]
  | none => [s]

/-- Python `str.isdigit()` restricted to ASCII digits. -/
def py_isdigit (s : List Char) : Bool :=
  !s.isEmpty && s.all (fun c => c.isDigit)

/-- Numeric value of a run of ASCII digits. -/
def digits_to_nat (s : List Char) : ℕ :=
  s.foldl (fun a c => a * 10 + (c.toNat - 48)) 0

/-- Python `int(s)` on a string: strip whitespace, optional sign, digits;
`none` models the `ValueError`. -/
def py_int (s : List Char) : Option ℤ :=
  let t := py_strip s
  match t with
  | '+' :: ds => if py_isdigit ds then some ((digits_to_nat ds : ℤ)) else none
  | '-' :: ds => if py_isdigit ds then some (-(digits_to_nat ds : ℤ)) else none
  | ds => if py_isdigit ds then some ((digits_to_nat ds : ℤ)) else none

/-- Lines 146-157, the try-block body: parse the raw Range header into the
clamped `(range_begin, range_end)`; `none` models the caught
`ValueError`/`IndexError`/`KeyError`. -/
def parse_range_values (request_range : List Char) (file_size : ℤ) :
    Option (ℤ × ℤ) :=
  match py_split1 (py_strip request_range) ("bytes=".data) with
  | [_, rest] =>
    let parts := py_split1 rest ("-".data)
    let start_s := py_strip (parts.headD [])
    let end_s := py_strip (parts.getD 1 [])
    let pre : Option (ℤ × ℤ) :=
      if start_s.isEmpty && py_isdigit end_s then
        some (max 0 (file_size - (digits_to_nat end_s : ℤ)), file_size)
      else
        match (if start_s.isEmpty then some (0 : ℤ) else py_int start_s) with
        | none => none
        | some rb =>
          some (rb, if py_isdigit end_s then ((digits_to_nat end_s : ℤ)) else file_size)
    pre.map (fun p =>
      let rb := max 0 (min p.1 file_size)
      (rb, max rb (min p.2 file_size)))
  | _ => none

/-- Line 161: the f-string `f"bytes {range_begin}-{range_end}/{file_size}"`. -/
def content_range_str (range_begin range_end file_size : ℤ) : String :=
  "bytes " ++ toString range_begin ++ "-" ++ toString range_end ++ "/" ++ toString file_size

/-- The response headers computed by `spotty_stream_audio_track`. -/
structure RangeResult where
  status : ℕ               -- 200, or 206 ("206 Partial Content")
  content_length : ℤ       -- range_end - range_begin
  content_range : Option String
  range_begin : ℤ
  range_end : ℤ
  deriving DecidableEq, Repr

/-- Lines 132-166 and 199-204 of `spotty_stream_audio_track`: status,
range and headers as a function of the request's Range header and the
session's track length. -/
def spotty_stream_range (request_range : String) (file_size : ℕ) : RangeResult :=
  let fs : ℤ := file_size
  if request_range = "" ∨ request_range = "bytes=0-" then
    { status := 200, content_length := fs, content_range := none,
      range_begin := 0, range_end := fs }
  else
    let pr := parse_range_values request_range.data fs
    let rb := (pr.map Prod.fst).getD 0
    let re := (pr.map Prod.snd).getD fs
    { status := 206, content_length := re - rb,
      content_range := some (content_range_str rb re fs),
      range_begin := rb, range_end := re }

/-! ## Theorems -/

/-- The track length as a closed formula of the truncated duration. -/
theorem set_track_length_eq (d : ℚ) (h0 : 0 ≤ d) :
    set_track_length d = 44 + 176400 * (⌊d⌋).toNat := by
  have hp : pyint_of_rat d = ⌊d⌋ := by simp [pyint_of_rat, h0]
  simp only [set_track_length, create_wav_header, hp]
  ring_nf

/-- The floor of the claim's concrete duration. -/
theorem floor_of_sample_duration : ⌊(178795 / 1000 : ℚ)⌋ = 178 := by
  norm_num

/-- C2 (corrected): `totalBytes` is a pure function of the duration, namely
`44 + 176400 * int(durationSeconds)` — the source truncates the duration to
whole seconds before multiplying (for inputs small enough that the packed
`L` fields stay below 2^32, which is where the source does not raise a
struct.error; `d < 24348` guarantees that). -/
theorem claim_C2 (d : ℚ) (h0 : 0 ≤ d) (hfit : d < 24348) :
    set_track_length d = 44 + 176400 * (⌊d⌋).toNat ∧
    36 + 176400 * (⌊d⌋).toNat < 4294967296 ∧
    (set_track_header d).length = 44 := by
  have hp : pyint_of_rat d = ⌊d⌋ := by simp [pyint_of_rat, h0]
  refine ⟨set_track_length_eq d h0, ?_, ?_⟩
  · have h1 : (⌊d⌋ : ℚ) ≤ d := Int.floor_le d
    have h2 : (⌊d⌋ : ℚ) < 24348 := lt_of_le_of_lt h1 hfit
    have h3 : ⌊d⌋ < 24348 := by exact_mod_cast h2
    omega
  · simp only [set_track_header, create_wav_header, hp, ascii, le16, le32,
      List.length_append, List.length_map]
    rfl

/-- C2 witness: the amended formula at the claim's concrete duration. -/
theorem claim_C2_witness :
    (0 : ℚ) ≤ 178795 / 1000 ∧ set_track_length (178795 / 1000) = 44 + 176400 * 178 := by
  refine ⟨by norm_num, ?_⟩
  have h := (claim_C2 (178795 / 1000) (by norm_num) (by norm_num)).1
  rw [h, floor_of_sample_duration]
  rfl

/-- C2 counterexample: for duration 178.795, the code's track length is
44 + 176400 * 178 = 31399244, which is neither
`44 + round(178.795 * 176400) = 31539482` nor `44 + 178.795 * 176400`. -/
theorem claim_C2_counterexample :
    set_track_length (178795 / 1000) = 31399244 ∧
    (31399244 : ℕ) ≠ 44 + (round ((178795 / 1000 : ℚ) * 176400)).toNat ∧
    ((set_track_length (178795 / 1000) : ℚ) ≠ 44 + (178795 / 1000) * 176400) := by
  have h : set_track_length (178795 / 1000) = 31399244 := by
    rw [set_track_length_eq (178795 / 1000) (by norm_num), floor_of_sample_duration]
    rfl
  have hr : round ((178795 / 1000 : ℚ) * 176400) = 31539438 := by
    norm_num [round_eq]
  refine ⟨h, ?_, ?_⟩
  · rw [hr]
    decide
  · rw [h]
    norm_num

/-- C4 (confirmed): with `maxRetries = 5` and every subprocess exit
returning 1, the run loop spawns exactly 5 times, breaks out permanently
with the retry counter at the ceiling, a subsequent `start()` call refuses
to spawn, and any exit with returncode ≤ 0 resets the counter to 0. -/
theorem claim_C4 :
    (∀ codes : List ℤ, (∀ c ∈ codes, c = 1) → 5 ≤ codes.length →
      librespot_run 5 codes = (5, 5, RunEnd.broke_out)) ∧
    librespot_start_spawns false 5 5 = false ∧
    (∀ (r : ℕ) (ret : ℤ), ret ≤ 0 → retries_after_exit r ret = 0) := by
  refine ⟨?_, by decide, fun r ret h => by simp [retries_after_exit, h]⟩
  intro codes hmem hlen
  match codes, hlen with
  | c1 :: c2 :: c3 :: c4 :: c5 :: rest, _ =>
    have h1 : c1 = 1 := hmem c1 (by simp)
    have h2 : c2 = 1 := hmem c2 (by simp)
    have h3 : c3 = 1 := hmem c3 (by simp)
    have h4 : c4 = 1 := hmem c4 (by simp)
    have h5 : c5 = 1 := hmem c5 (by simp)
    subst h1 h2 h3 h4 h5
    simp [librespot_run, librespot_run_loop, retries_after_exit]

/-- C4 witness: the retry-ceiling run and the counter reset at concrete
inputs. -/
theorem claim_C4_witness :
    librespot_run 5 [1, 1, 1, 1, 1] = (5, 5, RunEnd.broke_out) ∧
    retries_after_exit 3 (-9) = 0 :=
  ⟨claim_C4.1 [1, 1, 1, 1, 1] (by decide) (by decide),
    claim_C4.2.2 3 (-9) (by decide)⟩

/-- C6 (confirmed): `get_and_clear_prebuffer` hits exactly when the slot
holds a buffer for exactly the requested id; a hit returns the buffer and
clears the slot, a miss returns `(None, False)` and leaves the state
unchanged, and a second consecutive call for the same id always misses. -/
theorem claim_C6 (s : PrebufferState) (track_id : String) :
    ((get_and_clear_prebuffer s track_id).1.2 = true ↔
      s.prebuffer_track_id = some track_id ∧ s.buffer ≠ none) ∧
    ((get_and_clear_prebuffer s track_id).1.2 = true →
      (get_and_clear_prebuffer s track_id).1.1 = s.buffer ∧
      (get_and_clear_prebuffer s track_id).2 = ⟨none, none⟩) ∧
    ((get_and_clear_prebuffer s track_id).1.2 = false →
      (get_and_clear_prebuffer s track_id).1.1 = none ∧
      (get_and_clear_prebuffer s track_id).2 = s) ∧
    (get_and_clear_prebuffer (get_and_clear_prebuffer s track_id).2 track_id).1 =
      (none, false) := by
  obtain ⟨buf, pid⟩ := s
  by_cases hid : pid = some track_id
  · subst hid
    cases buf with
    | none => simp [get_and_clear_prebuffer]
    | some b => simp [get_and_clear_prebuffer]
  · simp [get_and_clear_prebuffer, hid]

/-- C6 witness: a hit followed by a forced miss at concrete state. -/
theorem claim_C6_witness :
    (get_and_clear_prebuffer ⟨some [7], some "x"⟩ "x").1.2 = true ∧
    (get_and_clear_prebuffer (get_and_clear_prebuffer ⟨some [7], some "x"⟩ "x").2 "x").1 =
      (none, false) :=
  ⟨(claim_C6 ⟨some [7], some "x"⟩ "x").1.mpr ⟨rfl, by simp⟩,
    (claim_C6 ⟨some [7], some "x"⟩ "x").2.2.2⟩

/-- A loop entered with an empty frame exits at once. -/
theorem send_loop_frame_zero (c_size range_len fuel b em : ℕ) (st : PipeState) :
    send_loop c_size range_len fuel b em 0 st = (b, em, st, LoopRes.ok) := by
  cases fuel <;> simp [send_loop]

/-- With no cancellation and no read failure, the skip loop always falls
through cleanly and preserves those two facts. -/
theorem skip_loop_clean (c_size : ℕ) :
    ∀ (fuel need disc : ℕ) (st : PipeState), st.flags = [] → st.err_at = none →
      (skip_loop c_size fuel need disc st).2.2 = LoopRes.ok ∧
      (skip_loop c_size fuel need disc st).2.1.flags = [] ∧
      (skip_loop c_size fuel need disc st).2.1.err_at = none := by
  intro fuel
  induction fuel with
  | zero =>
    intro need disc st hf he
    match need with
    | 0 => simp [skip_loop, hf, he]
    | n + 1 => simp [skip_loop, hf, he]
  | succ f ih =>
    intro need disc st hf he
    match need with
    | 0 => simp [skip_loop, hf, he]
    | n + 1 =>
      obtain ⟨rem, flags, err, reads⟩ := st
      simp only at hf he
      subst hf; subst he
      simp only [skip_loop, popFlag, pipeRead]
      simp only [reduceCtorEq, if_false, if_neg (by simp : ¬(none : Option ℕ) = some reads)]
      split
      · simp
      · exact ih _ _ _ rfl rfl

/-- With no cancellation and no read failure, the send loop always falls
through cleanly. -/
theorem send_loop_clean (c_size range_len : ℕ) :
    ∀ (fuel b em frame : ℕ) (st : PipeState), st.flags = [] → st.err_at = none →
      (send_loop c_size range_len fuel b em frame st).2.2.2 = LoopRes.ok := by
  intro fuel
  induction fuel with
  | zero => intro b em frame st hf he; simp [send_loop]
  | succ f ih =>
    intro b em frame st hf he
    obtain ⟨rem, flags, err, reads⟩ := st
    simp only at hf he
    subst hf; subst he
    by_cases hc : frame = 0 ∨ range_len ≤ b
    · simp [send_loop, hc]
    · simp only [send_loop, if_neg hc, popFlag, pipeRead]
      simp only [Bool.false_eq_true, if_false,
        if_neg (by simp : ¬(none : Option ℕ) = some reads)]
      exact ih _ _ _ _ rfl rfl

/-- Exact behaviour of the skip loop when the pipe holds at least `need`
bytes, there is no cancellation or read failure, and the chunk size is
positive: it discards exactly `need` further bytes. -/
theorem skip_loop_spec (c_size : ℕ) (hcs : 1 ≤ c_size) :
    ∀ (fuel need disc : ℕ) (st : PipeState), st.flags = [] → st.err_at = none →
      need ≤ fuel → need ≤ st.rem →
      (skip_loop c_size fuel need disc st).1 = disc + need ∧
      (skip_loop c_size fuel need disc st).2.1.rem = st.rem - need ∧
      (skip_loop c_size fuel need disc st).2.1.flags = [] ∧
      (skip_loop c_size fuel need disc st).2.1.err_at = none ∧
      (skip_loop c_size fuel need disc st).2.2 = LoopRes.ok := by
  intro fuel
  induction fuel with
  | zero =>
    intro need disc st hf he hfu hrem
    have hn : need = 0 := by omega
    subst hn
    simp [skip_loop, hf, he]
  | succ f ih =>
    intro need disc st hf he hfu hrem
    match need, hfu, hrem with
    | 0, _, _ => simp [skip_loop, hf, he]
    | n + 1, hfu, hrem =>
      obtain ⟨rem, flags, err, reads⟩ := st
      simp only at hf he hrem
      subst hf; subst he
      simp only [skip_loop, popFlag, pipeRead]
      simp only [Bool.false_eq_true, if_false,
        if_neg (by simp : ¬(none : Option ℕ) = some reads)]
      have hch : ¬ min (min c_size (n + 1)) rem = 0 := by omega
      rw [if_neg hch]
      have hih := ih (n + 1 - min (min c_size (n + 1)) rem)
        (disc + min (min c_size (n + 1)) rem)
        ⟨rem - min (min c_size (n + 1)) rem, [], none, reads + 1⟩ rfl rfl
        (by omega) (by simp only; omega)
      obtain ⟨h1, h2, h3, h4, h5⟩ := hih
      refine ⟨?_, ?_, h3, h4, h5⟩
      · rw [h1]; omega
      · rw [h2]; simp only; omega

/-- Exact behaviour of the send loop under no cancellation and no read
failure, with enough fuel: it falls through cleanly, the counter and the
emitted bytes grow in lockstep, and the final counter is at least
`min range_len (bytes available)` and overshoots `range_len` by less than
one chunk. -/
theorem send_loop_spec (c_size range_len : ℕ) (hcs : 1 ≤ c_size) :
    ∀ (fuel b em frame : ℕ) (st : PipeState), st.flags = [] → st.err_at = none →
      st.rem + 1 ≤ fuel → frame ≤ c_size → (frame = 0 → st.rem = 0) →
      (send_loop c_size range_len fuel b em frame st).2.2.2 = LoopRes.ok ∧
      em ≤ (send_loop c_size range_len fuel b em frame st).2.1 ∧
      (send_loop c_size range_len fuel b em frame st).1 =
        b + ((send_loop c_size range_len fuel b em frame st).2.1 - em) ∧
      min range_len (b + frame + st.rem) ≤ (send_loop c_size range_len fuel b em frame st).1 ∧
      (send_loop c_size range_len fuel b em frame st).1 ≤ max b (range_len + c_size - 1) := by
  intro fuel
  induction fuel with
  | zero =>
    intro b em frame st hf he hfu hfr hfz
    exfalso; omega
  | succ f ih =>
    intro b em frame st hf he hfu hfr hfz
    obtain ⟨rem, flags, err, reads⟩ := st
    simp only at hf he hfu hfz
    subst hf; subst he
    by_cases hc : frame = 0 ∨ range_len ≤ b
    · rw [send_loop, if_pos hc]
      have hz : frame = 0 → rem = 0 := hfz
      refine ⟨rfl, le_rfl, show b = b + (em - em) by omega, ?_,
        show b ≤ max b (range_len + c_size - 1) by omega⟩
      rcases hc with hc | hc
      · exact show min range_len (b + frame + rem) ≤ b by have := hz hc; omega
      · exact show min range_len (b + frame + rem) ≤ b by omega
    · rw [send_loop, if_neg hc]
      push_neg at hc
      obtain ⟨hfr0, hblt⟩ := hc
      simp only [popFlag, pipeRead]
      simp only [Bool.false_eq_true, if_false,
        if_neg (by simp : ¬(none : Option ℕ) = some reads)]
      by_cases hnx : min c_size rem = 0
      · have hrem0 : rem = 0 := by omega
        rw [hnx, send_loop_frame_zero]
        refine ⟨rfl, show em ≤ em + frame by omega,
          show b + frame = b + (em + frame - em) by omega,
          show min range_len (b + frame + rem) ≤ b + frame by omega,
          show b + frame ≤ max b (range_len + c_size - 1) by omega⟩
      · have hih := ih (b + frame) (em + frame) (min c_size rem)
          ⟨rem - min c_size rem, [], none, reads + 1⟩ rfl rfl
          (by simp only; omega) (by omega) (fun h => absurd h hnx)
        obtain ⟨h1, h2, h3, h4, h5⟩ := hih
        simp only at h2 h3 h4 h5
        refine ⟨h1, by omega, by omega, by omega, by omega⟩

/-- A clean run with a pipe that supplies the sub-second skip plus the
requested length: the generator completes naturally and yields at least
`range_len` bytes, overshooting by less than one chunk (except that a
`range_begin = 0` request shorter than the header still yields the whole
header). -/
theorem send_part_total (a : StreamArgs) (hf : a.flags = []) (he : a.err_at = none)
    (hs : a.spawn_ok = true) (hcs : 1 ≤ a.chunk_size)
    (hpipe : pcm_skip_of a.range_begin a.header_len + a.range_len ≤ a.pipe) :
    (send_part_audio_stream a).end_kind = EndKind.natural ∧
    (send_part_audio_stream a).notified = 1 ∧
    a.range_len ≤ (send_part_audio_stream a).yielded ∧
    (send_part_audio_stream a).yielded ≤
      max a.header_len (a.range_len + a.chunk_size - 1) := by
  obtain ⟨hk1, hk2, hk3, hk4, hk5⟩ :=
    skip_loop_spec a.chunk_size hcs (pcm_skip_of a.range_begin a.header_len)
      (pcm_skip_of a.range_begin a.header_len) 0
      ⟨a.pipe, [], none, 0⟩ rfl rfl le_rfl (by simp only; omega)
  simp only at hk1 hk2
  simp only [send_part_audio_stream]
  rw [hf, hs, he]
  simp only [popFlag, Bool.false_eq_true, reduceCtorEq, if_false]
  set sres := skip_loop a.chunk_size (pcm_skip_of a.range_begin a.header_len)
    (pcm_skip_of a.range_begin a.header_len) 0 ⟨a.pipe, [], none, 0⟩ with hsres
  simp only [hk5]
  simp only [pipeRead, hk3, hk4, reduceCtorEq, if_false]
  set y0 := if a.range_begin = 0 then a.header_len
    else if a.range_begin < a.header_len then
      min (a.header_len - a.range_begin) a.range_len
    else 0 with hy0
  have hy0le : y0 ≤ a.header_len := by
    rw [hy0]; split
    · omega
    · split <;> omega
  obtain ⟨hl1, hl2, hl3, hl4, hl5⟩ := send_loop_spec a.chunk_size a.range_len hcs
    (sres.2.1.rem - min a.chunk_size sres.2.1.rem + 1) y0 0
    (min a.chunk_size sres.2.1.rem)
    ⟨sres.2.1.rem - min a.chunk_size sres.2.1.rem, [], none, sres.2.1.reads + 1⟩
    rfl rfl (by simp only; omega) (by omega)
    (fun h => by simp only; omega)
  simp only at hl2 hl3 hl4 hl5
  simp only [hl1]
  refine ⟨by trivial, by trivial, by omega, by omega⟩

/-- A clean run seeking past the header with a pipe that supplies at least
the skip plus one byte: the decoder is spawned at
`(range_begin - header_len) / 176400` seconds, exactly
`(range_begin - header_len) % 176400` bytes are discarded, and the first
PCM byte yielded sits at file offset `range_begin`. -/
theorem send_part_seek (a : StreamArgs) (hf : a.flags = []) (he : a.err_at = none)
    (hs : a.spawn_ok = true) (hcs : 1 ≤ a.chunk_size)
    (hseek : a.header_len < a.range_begin) (hrl : 1 ≤ a.range_len)
    (hpipe : pcm_skip_of a.range_begin a.header_len + 1 ≤ a.pipe) :
    (send_part_audio_stream a).spawned = true ∧
    (send_part_audio_stream a).start_sec =
      (a.range_begin - a.header_len) / pcm_bytes_per_sec ∧
    (send_part_audio_stream a).discarded =
      (a.range_begin - a.header_len) % pcm_bytes_per_sec ∧
    (send_part_audio_stream a).first_pcm = some a.range_begin := by
  obtain ⟨hk1, hk2, hk3, hk4, hk5⟩ :=
    skip_loop_spec a.chunk_size hcs (pcm_skip_of a.range_begin a.header_len)
      (pcm_skip_of a.range_begin a.header_len) 0
      ⟨a.pipe, [], none, 0⟩ rfl rfl le_rfl (by simp only; omega)
  simp only at hk1 hk2
  have hskipv : pcm_skip_of a.range_begin a.header_len =
      (a.range_begin - a.header_len) % pcm_bytes_per_sec := by
    unfold pcm_skip_of
    rw [if_pos (by omega)]
  have hsecv : start_sec_of a.range_begin a.header_len =
      (a.range_begin - a.header_len) / pcm_bytes_per_sec := by
    unfold start_sec_of
    rw [if_pos (by omega)]
  simp only [send_part_audio_stream]
  rw [hf, hs, he]
  simp only [popFlag, Bool.false_eq_true, reduceCtorEq, if_false]
  set sres := skip_loop a.chunk_size (pcm_skip_of a.range_begin a.header_len)
    (pcm_skip_of a.range_begin a.header_len) 0 ⟨a.pipe, [], none, 0⟩ with hsres
  simp only [hk5]
  simp only [pipeRead, hk3, hk4, reduceCtorEq, if_false]
  set y0 := if a.range_begin = 0 then a.header_len
    else if a.range_begin < a.header_len then
      min (a.header_len - a.range_begin) a.range_len
    else 0 with hy0
  have hy00 : y0 = 0 := by
    rw [hy0, if_neg (by omega), if_neg (by omega)]
  obtain ⟨hl1, hl2, hl3, hl4, hl5⟩ := send_loop_spec a.chunk_size a.range_len hcs
    (sres.2.1.rem - min a.chunk_size sres.2.1.rem + 1) y0 0
    (min a.chunk_size sres.2.1.rem)
    ⟨sres.2.1.rem - min a.chunk_size sres.2.1.rem, [], none, sres.2.1.reads + 1⟩
    rfl rfl (by simp only; omega) (by omega)
    (fun h => by simp only; omega)
  simp only at hl2 hl3 hl4 hl5
  simp only [hl1]
  have hem : 0 < (send_loop a.chunk_size a.range_len
      (sres.2.1.rem - min a.chunk_size sres.2.1.rem + 1) y0 0
      (min a.chunk_size sres.2.1.rem)
      ⟨sres.2.1.rem - min a.chunk_size sres.2.1.rem, [], none, sres.2.1.reads + 1⟩).2.1 := by
    omega
  rw [if_pos hem]
  refine ⟨by trivial, hsecv, by rw [hk1, hskipv]; omega, ?_⟩
  rw [hk1, hsecv, hskipv]
  have hdm := Nat.div_add_mod (a.range_begin - a.header_len) pcm_bytes_per_sec
  simp only [pcm_bytes_per_sec] at hdm ⊢
  congr 1
  omega

/-- C5 (corrected): an unknown but JSON-decodable truthy payload is skipped
by the dispatcher and the receive loop continues; any falsy decoded payload
terminates the loop as the sentinel; but a non-decodable payload makes
`json.loads` raise, which aborts the receive loop (the consumer's outer
try logs it; the loop does not continue). -/
theorem claim_C5 :
    (∀ (pre : List Json) (rest : List (Option Json)),
      (∀ e ∈ pre, e.is_falsy = false) →
      receive_event (pre.map some ++ none :: rest) = (pre, RecvEnd.decode_error)) ∧
    (∀ events : List Json, (∀ e ∈ events, e.is_falsy = false) →
      receive_event (events.map some) = (events, RecvEnd.blocked)) ∧
    (∀ (v : Json) (rest : List (Option Json)), v.is_falsy = true →
      receive_event (some v :: rest) = ([], RecvEnd.sentinel)) ∧
    (∀ s : String, s ≠ "stopped" → s ≠ "track_changed" →
      dispatch_event (Json.obj [("PLAYER_EVENT", Json.str s)]) =
        DispatchAction.skipped) := by
  refine ⟨?_, ?_, ?_, ?_⟩
  · intro pre rest hmem
    induction pre with
    | nil => rfl
    | cons e pre ih =>
      have he : e.is_falsy = false := hmem e (by simp)
      have ih2 := ih (fun x hx => hmem x (by simp [hx]))
      simp [receive_event, he, ih2]
  · intro events hmem
    induction events with
    | nil => rfl
    | cons e events ih =>
      have he : e.is_falsy = false := hmem e (by simp)
      have ih2 := ih (fun x hx => hmem x (by simp [hx]))
      simp [receive_event, he, ih2]
  · intro v rest hv
    simp [receive_event, hv]
  · intro s h1 h2
    simp [dispatch_event, pop_field, h1, h2]

/-- C5 witness: a truthy unknown-shaped event before a decode failure is
still yielded; the dispatcher skips an unknown player event. -/
theorem claim_C5_witness :
    receive_event ([Json.str "x"].map some ++ none :: []) =
      ([Json.str "x"], RecvEnd.decode_error) ∧
    dispatch_event (Json.obj [("PLAYER_EVENT", Json.str "seeking")]) =
      DispatchAction.skipped :=
  ⟨claim_C5.1 [Json.str "x"] []
      (by intro e he; simp at he; subst he; rfl),
    claim_C5.2.2.2 "seeking" (by decide) (by decide)⟩

/-- C5 counterexample: a malformed (non-decodable) datagram followed by a
valid track-changed event: the loop aborts with the decode error and the
valid event is never yielded, contradicting "logged and skipped, the loop
continues". -/
theorem claim_C5_counterexample :
    receive_event [none, some (Json.obj [("PLAYER_EVENT", Json.str "track_changed")])] =
      ([], RecvEnd.decode_error) ∧
    (receive_event [none, some (Json.obj [("PLAYER_EVENT", Json.str "track_changed")])]).1 ≠
      [Json.obj [("PLAYER_EVENT", Json.str "track_changed")]] := by
  refine ⟨rfl, ?_⟩
  intro h
  simp [receive_event] at h

/-- C7 (confirmed): on a pre-buffer hit with a buffer of length L, the body
starts with the buffer slice `[begin, min(end, L))` whenever `begin < L`,
continues with the live decoder called at `(end - max(begin, L),
max(begin, L))` whenever `end > L`, and every live-decoder call in the body
starts at file offset at least L; in the concrete 15-second scenario the
first decoder byte yielded sits exactly at offset 2646000. -/
theorem claim_C7 :
    (∀ L r_begin r_end : ℕ, 0 < L → r_begin < L →
      http_generate true L r_begin r_end =
        BodyPart.prebuf_slice r_begin (min r_end L) ::
          (if L < r_end then [BodyPart.decoder_stream (r_end - L) L] else [])) ∧
    (∀ L r_begin r_end : ℕ, 0 < L → L < r_end →
      BodyPart.decoder_stream (r_end - max r_begin L) (max r_begin L) ∈
        http_generate true L r_begin r_end) ∧
    (∀ L r_begin r_end len start : ℕ, 0 < L →
      BodyPart.decoder_stream len start ∈ http_generate true L r_begin r_end →
      L ≤ start) ∧
    (http_generate true 2646000 0 31399244 =
      [BodyPart.prebuf_slice 0 2646000, BodyPart.decoder_stream 28753244 2646000] ∧
    (send_part_audio_stream
        ⟨44, 1048576, 28753244, 2646000, 28929600, [], none, true⟩).first_pcm =
      some 2646000) := by
  refine ⟨?_, ?_, ?_, by decide,
    (send_part_seek ⟨44, 1048576, 28753244, 2646000, 28929600, [], none, true⟩
      rfl rfl rfl (by decide) (by decide) (by decide) (by decide)).2.2.2⟩
  · intro L rb re hL hlt
    have hmax : max rb L = L := by omega
    simp [http_generate, hL, hlt, hmax]
  · intro L rb re hL hlt
    by_cases hb : rb < L <;> simp [http_generate, hL, hb, hlt]
  · intro L rb re len start hL hmem
    by_cases hb : rb < L <;> by_cases hre : L < re <;>
      simp [http_generate, hL, hb, hre] at hmem <;> omega

/-- C7 witness: the general slice shape at the concrete 15-second fill. -/
theorem claim_C7_witness :
    http_generate true 2646000 0 31399244 =
      BodyPart.prebuf_slice 0 (min 31399244 2646000) ::
        (if 2646000 < 31399244 then
          [BodyPart.decoder_stream (31399244 - 2646000) 2646000] else []) :=
  claim_C7.1 2646000 0 31399244 (by decide) (by decide)

/-- C1 (corrected): under no cancellation, no error, a positive chunk size
and a pipe supplying the sub-second skip plus the range length, the
generator yields at least `end - begin` bytes but may yield more: frames
are forwarded whole, so the total is only bounded by
`max headerLength (end - begin + chunkSize - 1)`. -/
theorem claim_C1 (a : StreamArgs) (hf : a.flags = []) (he : a.err_at = none)
    (hs : a.spawn_ok = true) (hcs : 1 ≤ a.chunk_size)
    (hpipe : pcm_skip_of a.range_begin a.header_len + a.range_len ≤ a.pipe) :
    a.range_len ≤ (send_part_audio_stream a).yielded ∧
    (send_part_audio_stream a).yielded ≤
      max a.header_len (a.range_len + a.chunk_size - 1) :=
  ⟨(send_part_total a hf he hs hcs hpipe).2.2.1,
    (send_part_total a hf he hs hcs hpipe).2.2.2⟩

/-- C1 witness: the bounds at a concrete request. -/
theorem claim_C1_witness :
    100 ≤ (send_part_audio_stream ⟨44, 1048576, 100, 0, 176400, [], none, true⟩).yielded ∧
    (send_part_audio_stream ⟨44, 1048576, 100, 0, 176400, [], none, true⟩).yielded ≤
      max 44 (100 + 1048576 - 1) :=
  claim_C1 ⟨44, 1048576, 100, 0, 176400, [], none, true⟩ rfl rfl rfl (by decide) (by decide)

/-- C1 counterexample: on the one-second track (totalBytes = 176444) the
valid range (0, 100) makes the generator yield 176444 bytes, not 100: the
44-byte header plus one whole 176400-byte frame. -/
theorem claim_C1_counterexample :
    set_track_length 1 = 176444 ∧
    (send_part_audio_stream ⟨44, 1048576, 100, 0, 176400, [], none, true⟩).yielded = 176444 ∧
    (send_part_audio_stream ⟨44, 1048576, 100, 0, 176400, [], none, true⟩).yielded ≠ 100 := by
  refine ⟨?_, by decide, by decide⟩
  rw [set_track_length_eq 1 (by norm_num)]
  have h1 : ⌊(1 : ℚ)⌋ = 1 := by norm_num
  rw [h1]
  rfl

/-- C3 (confirmed): for a request with `pcmTargetOffset > 0` (range begin
past the header), the decoder is spawned at
`startSecond = pcmTargetOffset div 176400`, exactly
`pcmTargetOffset mod 176400` bytes are read and discarded before any PCM
is yielded, and the first PCM byte yielded sits at file offset
`rangeBegin` (given enough pipe data and no cancellation). -/
theorem claim_C3 (a : StreamArgs) (hf : a.flags = []) (he : a.err_at = none)
    (hs : a.spawn_ok = true) (hcs : 1 ≤ a.chunk_size)
    (hseek : a.header_len < a.range_begin) (hrl : 1 ≤ a.range_len)
    (hpipe : pcm_skip_of a.range_begin a.header_len + 1 ≤ a.pipe) :
    (send_part_audio_stream a).spawned = true ∧
    (send_part_audio_stream a).start_sec =
      (a.range_begin - a.header_len) / pcm_bytes_per_sec ∧
    (send_part_audio_stream a).discarded =
      (a.range_begin - a.header_len) % pcm_bytes_per_sec ∧
    (send_part_audio_stream a).first_pcm = some a.range_begin :=
  send_part_seek a hf he hs hcs hseek hrl hpipe

/-- C3 witness: seeking to byte 2646000 spawns at second 14, discards
176356 bytes and lands the first PCM byte on 2646000. -/
theorem claim_C3_witness :
    (send_part_audio_stream ⟨44, 1048576, 1, 2646000, 176357, [], none, true⟩).first_pcm =
      some 2646000 ∧
    (send_part_audio_stream ⟨44, 1048576, 1, 2646000, 176357, [], none, true⟩).start_sec =
      14 := by
  have h := claim_C3 ⟨44, 1048576, 1, 2646000, 176357, [], none, true⟩
    rfl rfl rfl (by decide) (by decide) (by decide) (by decide)
  exact ⟨h.2.2.2, by rw [h.2.1]; decide⟩

/-- C9 (corrected): within one generator run the finished callback fires
exactly on natural exhaustion (once) and never on client termination or an
exception; but it is per generator run, not per track session — a session
with two naturally exhausting range requests fires it twice. -/
theorem claim_C9 (a : StreamArgs) :
    ((send_part_audio_stream a).notified = 1 ↔
      (send_part_audio_stream a).end_kind = EndKind.natural) ∧
    (a.flags = [] → a.err_at = none → a.spawn_ok = true →
      (send_part_audio_stream a).end_kind = EndKind.natural) ∧
    (a.flags.headD false = true →
      (send_part_audio_stream a).end_kind = EndKind.terminated ∧
      (send_part_audio_stream a).notified = 0) ∧
    (a.spawn_ok = false → a.flags.headD false = false →
      (send_part_audio_stream a).end_kind = EndKind.errored ∧
      (send_part_audio_stream a).notified = 0) := by
  refine ⟨?_, ?_, ?_, ?_⟩
  · simp only [send_part_audio_stream]
    split
    · simp
    · split
      · simp
      · split
        · simp
        · simp
        · split
          · simp
          · split
            · simp
            · simp
            · simp
  · intro hf he hs
    obtain ⟨hc1, hc2, hc3⟩ := skip_loop_clean a.chunk_size
      (pcm_skip_of a.range_begin a.header_len) (pcm_skip_of a.range_begin a.header_len) 0
      ⟨a.pipe, [], none, 0⟩ rfl rfl
    simp only [send_part_audio_stream]
    rw [hf, hs, he]
    simp only [popFlag, Bool.false_eq_true, reduceCtorEq, if_false]
    set sres := skip_loop a.chunk_size (pcm_skip_of a.range_begin a.header_len)
      (pcm_skip_of a.range_begin a.header_len) 0 ⟨a.pipe, [], none, 0⟩ with hsres
    simp only [hc1]
    simp only [pipeRead, hc2, hc3, reduceCtorEq, if_false]
    rw [send_loop_clean a.chunk_size a.range_len _ _ _ _ _ rfl rfl]
  · intro hflag
    cases hfv : a.flags with
    | nil => rw [hfv] at hflag; simp at hflag
    | cons b tl =>
      rw [hfv] at hflag
      simp only [List.headD_cons] at hflag
      subst hflag
      simp [send_part_audio_stream, hfv, popFlag]
  · intro hsp hflag
    cases hfv : a.flags with
    | nil => simp [send_part_audio_stream, hfv, popFlag, hsp]
    | cons b tl =>
      rw [hfv] at hflag
      simp only [List.headD_cons] at hflag
      subst hflag
      simp [send_part_audio_stream, hfv, popFlag, hsp]

/-- C9 witness: a clean run fires the callback exactly once. -/
theorem claim_C9_witness :
    (send_part_audio_stream ⟨44, 8, 10, 0, 20, [], none, true⟩).notified = 1 ∧
    (send_part_audio_stream ⟨44, 8, 10, 0, 20, [], none, true⟩).end_kind =
      EndKind.natural := by
  have h := claim_C9 ⟨44, 8, 10, 0, 20, [], none, true⟩
  have hn := h.2.1 rfl rfl rfl
  exact ⟨h.1.mpr hn, hn⟩

/-- C9 counterexample: one track session serving two range requests, both
of which exhaust naturally, fires the finished callback twice, not once. -/
theorem claim_C9_counterexample :
    session_notified [⟨44, 1048576, 100, 0, 176400, [], none, true⟩,
      ⟨44, 1048576, 100, 100, 176400, [], none, true⟩] = 2 ∧
    (send_part_audio_stream ⟨44, 1048576, 100, 0, 176400, [], none, true⟩).end_kind =
      EndKind.natural ∧
    (send_part_audio_stream ⟨44, 1048576, 100, 100, 176400, [], none, true⟩).end_kind =
      EndKind.natural ∧
    (2 : ℕ) ≠ 1 := by
  refine ⟨by decide, by decide, by decide, by decide⟩

/-- Any clamped parse result lies inside `[0, file_size]` in order. -/
theorem parse_range_values_bounds (raw : List Char) (fs : ℤ) (hfs : 0 ≤ fs)
    (p : ℤ × ℤ) (h : parse_range_values raw fs = some p) :
    0 ≤ p.1 ∧ p.1 ≤ p.2 ∧ p.2 ≤ fs := by
  unfold parse_range_values at h
  rcases hsp : py_split1 (py_strip raw) ("bytes=".data) with _ | ⟨x, l⟩
  · rw [hsp] at h; simp at h
  rcases l with _ | ⟨y, l2⟩
  · rw [hsp] at h; simp at h
  rcases l2 with _ | ⟨z, l3⟩
  · rw [hsp] at h
    simp only [Option.map_eq_some'] at h
    obtain ⟨q, hq, hclamp⟩ := h
    rw [← hclamp]
    simp only
    omega
  · rw [hsp] at h; simp at h

/-- `rfl`-evaluation of the suffix-range parse for the claim's header. -/
theorem parse_suffix_500 (fs : ℤ) :
    parse_range_values ['b', 'y', 't', 'e', 's', '=', '-', '5', '0', '0'] fs =
      some (max 0 (min (max 0 (fs - 500)) fs),
        max (max 0 (min (max 0 (fs - 500)) fs)) (min fs fs)) := rfl

/-- C8 (confirmed): `Range: bytes=-500` on a track of at least 500 bytes
clamps to the final 500 bytes, answers 206 with Content-Length 500 and
Content-Range `bytes <fs-500>-<fs>/<fs>`; and every parsed numeric range
is clamped into `0 ≤ begin ≤ end ≤ totalBytes`. -/
theorem claim_C8 :
    (∀ fs : ℕ, 500 ≤ fs →
      (spotty_stream_range "bytes=-500" fs).status = 206 ∧
      (spotty_stream_range "bytes=-500" fs).content_length = 500 ∧
      (spotty_stream_range "bytes=-500" fs).range_begin = (fs : ℤ) - 500 ∧
      (spotty_stream_range "bytes=-500" fs).range_end = (fs : ℤ) ∧
      (spotty_stream_range "bytes=-500" fs).content_range =
        some (content_range_str ((fs : ℤ) - 500) (fs : ℤ) (fs : ℤ))) ∧
    (∀ (s : String) (fs : ℕ),
      0 ≤ (spotty_stream_range s fs).range_begin ∧
      (spotty_stream_range s fs).range_begin ≤ (spotty_stream_range s fs).range_end ∧
      (spotty_stream_range s fs).range_end ≤ (fs : ℤ)) := by
  constructor
  · intro fs hfs
    have hne : ¬(("bytes=-500" : String) = "" ∨ ("bytes=-500" : String) = "bytes=0-") := by
      decide
    simp only [spotty_stream_range, if_neg hne]
    simp only [parse_suffix_500, Option.map_some', Option.getD_some]
    have hrb : max 0 (min (max 0 ((fs : ℤ) - 500)) (fs : ℤ)) = (fs : ℤ) - 500 := by omega
    rw [hrb]
    have hre : max ((fs : ℤ) - 500) (min (fs : ℤ) (fs : ℤ)) = (fs : ℤ) := by omega
    rw [hre]
    refine ⟨by trivial, by omega, by trivial, by trivial, by trivial⟩
  · intro s fs
    by_cases hcond : s = "" ∨ s = "bytes=0-"
    · simp only [spotty_stream_range, if_pos hcond]
      refine ⟨?_, ?_, ?_⟩ <;> omega
    · simp only [spotty_stream_range, if_neg hcond]
      rcases hp : parse_range_values s.data ((fs : ℕ) : ℤ) with _ | p
      · simp only [hp, Option.map_none', Option.getD_none]
        refine ⟨?_, ?_, ?_⟩ <;> omega
      · have hb := parse_range_values_bounds s.data ((fs : ℕ) : ℤ)
          (Int.natCast_nonneg fs) p hp
        simp only [hp, Option.map_some', Option.getD_some]
        exact ⟨hb.1, hb.2.1, hb.2.2⟩

/-- C8 witness: the suffix request on a 1000-byte track. -/
theorem claim_C8_witness :
    (500 : ℕ) ≤ 1000 ∧ (spotty_stream_range "bytes=-500" 1000).content_length = 500 :=
  ⟨by decide, (claim_C8.1 1000 (by decide)).2.1⟩

/-- The f-string with a zero begin, in the shape the claim uses. -/
theorem content_range_str_zero (re fs : ℤ) :
    content_range_str 0 re fs = "bytes 0-" ++ toString re ++ "/" ++ toString fs := by
  unfold content_range_str
  rw [show ("bytes " ++ toString (0 : ℤ) ++ "-" : String) = "bytes 0-" by decide]

/-- C10 (confirmed): a present, non-`bytes=0-`, unparsable Range header
still gets status 206 with Content-Range `bytes 0-<total>/<total>` (the
full file), and only an absent/empty Range header or exactly `bytes=0-`
yields status 200. -/
theorem claim_C10 (s : String) (fs : ℕ) :
    (s ≠ "" → s ≠ "bytes=0-" → parse_range_values s.data ((fs : ℕ) : ℤ) = none →
      (spotty_stream_range s fs).status = 206 ∧
      (spotty_stream_range s fs).range_begin = 0 ∧
      (spotty_stream_range s fs).range_end = (fs : ℤ) ∧
      (spotty_stream_range s fs).content_range =
        some ("bytes 0-" ++ toString (fs : ℤ) ++ "/" ++ toString (fs : ℤ))) ∧
    ((spotty_stream_range s fs).status = 200 ↔ (s = "" ∨ s = "bytes=0-")) := by
  constructor
  · intro h1 h2 hparse
    have hne : ¬(s = "" ∨ s = "bytes=0-") := by
      push_neg
      exact ⟨h1, h2⟩
    simp only [spotty_stream_range, if_neg hne, hparse, Option.map_none', Option.getD_none]
    refine ⟨by trivial, by trivial, by trivial, ?_⟩
    rw [content_range_str_zero]
  · by_cases hcond : s = "" ∨ s = "bytes=0-"
    · simp [spotty_stream_range, hcond]
    · simp [spotty_stream_range, hcond]

/-- C10 witness: the header "garbage" is unparsable and still gets a 206
with a full-range Content-Range. -/
theorem claim_C10_witness :
    parse_range_values ("garbage".data) ((176444 : ℕ) : ℤ) = none ∧
    (spotty_stream_range "garbage" 176444).status = 206 := by
  have hp : parse_range_values ("garbage".data) ((176444 : ℕ) : ℤ) = none := rfl
  exact ⟨hp, ((claim_C10 "garbage" 176444).1 (by decide) (by decide) hp).1⟩

end SpotifyKodiConnect
